import Mathlib

/-!
Verification of the availability addon (`src/index.ts`): a stream handler
that resolves an IMDB id to a TMDB id, fetches region-tagged release
events, picks the earliest digital release date (preferring the US
region), and formats one of a fixed set of display entries.

The two outbound HTTP fetches are modelled as oracles returning
`Except Unit` values: `.error ()` stands for any thrown failure
(non-success HTTP status, network failure, JSON body that fails to
parse), `.ok` for a successfully decoded response body.  JavaScript
`new Date(s).getTime()` is modelled by a parameter
`time : String → Option Int`, where `none` stands for `NaN`
(an unparseable date); a concrete instance `jsDateMillis` implements the
ECMAScript date-only ISO format used in the examples.
-/

namespace Availability

/-- `movie_results[].id` element of the TMDB `/find` response.  JSON
numbers that can appear as ids are modelled as integers. -/
structure MovieResult where
  id : Int
deriving DecidableEq, Repr

/-- TMDB `/find` response: `{ movie_results?: Array<{ id: number }> }`.
The optional field is `none` when absent from the JSON. -/
structure TmdbFindResponse where
  movie_results : Option (List MovieResult)
deriving DecidableEq, Repr

/-- One entry of `release_dates?: Array<{ release_date: string; type: number }>`. -/
structure ReleaseDateEntry where
  release_date : String
  type : Int
deriving DecidableEq, Repr

/-- One entry of `results?`: `{ iso_3166_1: string; release_dates?: ... }`. -/
structure RegionResult where
  iso_3166_1 : String
  release_dates : Option (List ReleaseDateEntry)
deriving DecidableEq, Repr

/-- TMDB `/movie/{id}/release_dates` response. -/
structure TmdbReleaseDatesResponse where
  results : Option (List RegionResult)
deriving DecidableEq, Repr

/-- The `(type, id)` pair of the incoming stream request (`StreamArgs`). -/
structure StreamArgs where
  type : String
  id : String
deriving DecidableEq, Repr

/-- One display entry: the `{ name, title, externalUrl }` objects built by
the handler. -/
structure Stream where
  name : String
  title : String
  externalUrl : String
deriving DecidableEq, Repr

/-- The handler's return value `{ streams: [...] }`. -/
structure StreamResponse where
  streams : List Stream
deriving DecidableEq, Repr

/-! ## JavaScript string and date primitives -/

/-- `s.split(":")[0]`: the portion of `s` before the first `":"`
(the whole string when there is no `":"`). -/
def splitColonHead (s : String) : String :=
  String.mk (s.data.takeWhile (fun c => c != ':'))

/-- `s.split("T")[0]`: the portion of `s` before the first `"T"`. -/
def splitTHead (s : String) : String :=
  String.mk (s.data.takeWhile (fun c => c != 'T'))

/-- `s.startsWith(p)`. -/
def jsStartsWith (s p : String) : Bool :=
  s.data.take p.data.length == p.data

/-- `plannedDate.split("T")[0] || plannedDate`: the `||` falls through to
the raw string exactly when the portion before the first `"T"` is the
empty string (a falsy value). -/
def jsDateOnly (s : String) : String :=
  let h := splitTHead s
  if h == "" then s else h

/-- The sort comparator `(a, b) => new Date(a).getTime() - new Date(b).getTime()`
as a Boolean "does `a` sort at or before `b`" relation: a non-positive
comparator value.  When either `getTime()` is `NaN` the subtraction is
`NaN`, which the ECMAScript sort treats as `+0` (elements compare equal),
so both directions hold. -/
def jsLe (time : String → Option Int) (a b : String) : Bool :=
  match time a, time b with
  | some x, some y => x ≤ y
  | _, _ => true

/-! ### A concrete model of `new Date(s).getTime()`

Modelled from ECMAScript `Date.parse` restricted to the date-only ISO
format `YYYY-MM-DD` (interpreted as UTC midnight); every other string is
conservatively treated as unparseable (`none` = `NaN`).  The general
theorems below are parametric in the `time` function, this instance only
feeds the concrete examples and witnesses. -/

/-- Proleptic-Gregorian leap-year test. -/
def isLeapYear (y : Int) : Bool :=
  (y % 4 == 0 && y % 100 != 0) || y % 400 == 0

/-- Number of days of month `m` (1–12) in year `y`. -/
def daysInMonth (y : Int) (m : Nat) : Nat :=
  if m == 2 then (if isLeapYear y then 29 else 28)
  else if m == 4 || m == 6 || m == 9 || m == 11 then 30
  else 31

/-- Days from the civil date `y-m-d` to the Unix epoch 1970-01-01
(Howard Hinnant's `days_from_civil`, with floor division). -/
def daysFromCivil (y : Int) (m d : Nat) : Int :=
  let yAdj : Int := if m ≤ 2 then y - 1 else y
  let era : Int := yAdj / 400
  let yoe : Int := yAdj - era * 400
  let mp : Int := ((m : Int) + 9) % 12
  let doy : Int := (153 * mp + 2) / 5 + (d : Int) - 1
  let doe : Int := yoe * 365 + yoe / 4 - yoe / 100 + doy
  era * 146097 + doe - 719468

/-- Numeric value of a decimal digit character. -/
def digitVal (c : Char) : Nat := c.toNat - 48

/-- Milliseconds since the Unix epoch for a `YYYY-MM-DD` string, `none`
(`NaN`) otherwise. -/
def jsDateMillis (s : String) : Option Int :=
  match s.data with
  | [y1, y2, y3, y4, c1, m1, m2, c2, d1, d2] =>
    if y1.isDigit && y2.isDigit && y3.isDigit && y4.isDigit &&
        c1 == '-' && m1.isDigit && m2.isDigit && c2 == '-' &&
        d1.isDigit && d2.isDigit then
      let y : Int := (1000 * digitVal y1 + 100 * digitVal y2 +
        10 * digitVal y3 + digitVal y4 : Nat)
      let m : Nat := 10 * digitVal m1 + digitVal m2
      let d : Nat := 10 * digitVal d1 + digitVal d2
      if 1 ≤ m && m ≤ 12 && 1 ≤ d && d ≤ daysInMonth y m then
        some (daysFromCivil y m d * 86400000)
      else none
    else none
  | _ => none

/-! ## A stable comparator sort

`candidates.sort(cmp)` of ECMAScript is a stable sort with respect to the
comparator; stable insertion sort realises that specification (for an
inconsistent comparator the ECMAScript order is implementation-defined,
so any order is a faithful model there). -/

/-- Insert `a` into `l`, before the first element `b` with `le a b`. -/
def orderedInsert (le : α → α → Bool) (a : α) : List α → List α
  | [] => [a]
  | b :: l => if le a b then a :: b :: l else b :: orderedInsert le a l

/-- Stable insertion sort by the Boolean relation `le`. -/
def sortByLe (le : α → α → Bool) : List α → List α
  | [] => []
  | a :: l => orderedInsert le a (sortByLe le l)

/-! ## The two resolvers -/

/-- `data.movie_results?.[0]?.id ?? null`: the first matched TMDB movie
id, or `none` when the array is absent or empty.  (The surrounding HTTP
fetch of `getTmdbIdFromImdb` is factored into the `find` oracle of
`streamHandler`.) -/
def getTmdbIdFromImdb (data : TmdbFindResponse) : Option Int :=
  match data.movie_results with
  | none => none
  | some l => l.head?.map (fun m => m.id)

/-- The inner `getDigitalDates` helper: flatten the per-region
`release_dates` arrays, keep entries whose `type === 4` and whose
`release_date` is truthy (non-empty), and project the dates. -/
def getDigitalDates (items : List RegionResult) : List String :=
  (((items.map (fun r => r.release_dates.getD [])).flatten).filter
    (fun rel => rel.type == 4 && rel.release_date != "")).map
    (fun rel => rel.release_date)

/-- The candidate date list of `getDigitalReleaseDate`: the US-restricted
set when non-empty, otherwise the unrestricted set. -/
def candidatesOf (data : TmdbReleaseDatesResponse) : List String :=
  let results := data.results.getD []
  let usResult := results.find? (fun r => r.iso_3166_1 == "US")
  let preferred := getDigitalDates (match usResult with
    | some u => [u]
    | none => [])
  let fallback := getDigitalDates results
  if preferred.length > 0 then preferred else fallback

/-- `getDigitalReleaseDate` after its fetch: `null` when the candidate
list is empty, otherwise the head of the comparator-sorted candidates.
(The fetch is factored into the `releaseDates` oracle of
`streamHandler`.) -/
def getDigitalReleaseDate (time : String → Option Int)
    (data : TmdbReleaseDatesResponse) : Option String :=
  let candidates := candidatesOf data
  if candidates.length == 0 then none
  else (sortByLe (jsLe time) candidates).head?

/-! ## The stream handler -/

/-- The `Configuration error` entry returned when `TMDB_API_KEY` is unset. -/
def configErrorStream : Stream :=
  { name := "Configuration error"
    title := "TMDB_API_KEY is not set"
    externalUrl := "https://www.themoviedb.org" }

/-- The `No TMDB match` entry. -/
def noMatchStream (imdbId : String) : Stream :=
  { name := "No TMDB match"
    title := "No TMDB match for " ++ imdbId
    externalUrl := "https://www.themoviedb.org" }

/-- The `No digital date` entry. -/
def noDigitalDateStream (tmdbUrl : String) : Stream :=
  { name := "No digital date"
    title := "No digital release date found"
    externalUrl := tmdbUrl }

/-- The `Not yet available` entry for an unparseable date. -/
def notYetAvailableStream (dateOnly tmdbUrl : String) : Stream :=
  { name := "Not yet available"
    title := "Planned digital release: " ++ dateOnly
    externalUrl := tmdbUrl }

/-- The `Digital release` entry for a date at or before now. -/
def digitalReleaseStream (dateOnly tmdbUrl : String) : Stream :=
  { name := "Digital release"
    title := "Released " ++ dateOnly
    externalUrl := tmdbUrl }

/-- The `⏳ Not Available Yet` entry for a strictly future date. -/
def notAvailableYetStream (dateOnly tmdbUrl : String) : Stream :=
  { name := "⏳ Not Available Yet"
    title := "Digital release: " ++ dateOnly ++ " — Check back after that date!"
    externalUrl := tmdbUrl }

/-- The `TMDB error` entry produced by the top-level `catch`. -/
def tmdbErrorStream : Stream :=
  { name := "TMDB error"
    title := "Failed to fetch release data"
    externalUrl := "https://www.themoviedb.org" }

/-- The `try` block of the handler: each `await`ed fetch either throws
(`.error`, propagated to the `catch`) or yields a decoded body.
`!tmdbId` is truthy exactly for `null` and `0`; `!plannedDate` exactly
for `null` and `""`. -/
def streamHandlerTry (imdbId : String)
    (find : String → Except Unit TmdbFindResponse)
    (releaseDates : Int → Except Unit TmdbReleaseDatesResponse)
    (time : String → Option Int) (now : Int) : Except Unit StreamResponse :=
  match find imdbId with
  | .error e => .error e
  | .ok data =>
    match getTmdbIdFromImdb data with
    | none => .ok { streams := [noMatchStream imdbId] }
    | some tmdbId =>
      if tmdbId == 0 then .ok { streams := [noMatchStream imdbId] }
      else
        let tmdbUrl := "https://www.themoviedb.org/movie/" ++ toString tmdbId
        match releaseDates tmdbId with
        | .error e => .error e
        | .ok rel =>
          match getDigitalReleaseDate time rel with
          | none => .ok { streams := [noDigitalDateStream tmdbUrl] }
          | some plannedDate =>
            if plannedDate == "" then
              .ok { streams := [noDigitalDateStream tmdbUrl] }
            else
              let dateOnly := jsDateOnly plannedDate
              match time plannedDate with
              | none => .ok { streams := [notYetAvailableStream dateOnly tmdbUrl] }
              | some releaseTime =>
                if releaseTime ≤ now then
                  .ok { streams := [digitalReleaseStream dateOnly tmdbUrl] }
                else
                  .ok { streams := [notAvailableYetStream dateOnly tmdbUrl] }

/-- The full stream handler.  `apiKey` is the `TMDB_API_KEY` value (`""`
when the variable is unset, and `!TMDB_API_KEY` is truthy exactly
then); `now` is `Date.now()`.  The `catch` converts any thrown failure
into the `TMDB error` entry, so the handler is total. -/
def streamHandler (apiKey : String) (args : StreamArgs)
    (find : String → Except Unit TmdbFindResponse)
    (releaseDates : Int → Except Unit TmdbReleaseDatesResponse)
    (time : String → Option Int) (now : Int) : StreamResponse :=
  if apiKey == "" then { streams := [configErrorStream] }
  else if args.type != "movie" then { streams := [] }
  else
    let imdbId := splitColonHead args.id
    if imdbId == "" || !jsStartsWith imdbId "tt" then { streams := [] }
    else
      match streamHandlerTry imdbId find releaseDates time now with
      | .ok r => r
      | .error _ => { streams := [tmdbErrorStream] }

/-! ## Sample data for the spec's concrete examples -/

/-- Release-events list with US digital entries `2024-05-01`, `2024-06-01`
and a French `2024-04-01`. -/
def usSample : TmdbReleaseDatesResponse :=
  { results := some [
      { iso_3166_1 := "US"
        release_dates := some [
          { release_date := "2024-05-01", type := 4 },
          { release_date := "2024-06-01", type := 4 }] },
      { iso_3166_1 := "FR"
        release_dates := some [
          { release_date := "2024-04-01", type := 4 }] }] }

/-- Release-events list with no US entry and a German digital entry dated
`2024-07-15`. -/
def fallbackSample : TmdbReleaseDatesResponse :=
  { results := some [
      { iso_3166_1 := "DE"
        release_dates := some [
          { release_date := "2024-07-15", type := 4 }] }] }

/-- Release-events list whose only digital date is the unparseable string
`"@T@"`. -/
def unparseableSample : TmdbReleaseDatesResponse :=
  { results := some [
      { iso_3166_1 := "US"
        release_dates := some [
          { release_date := "@T@", type := 4 }] }] }

/-- A `/find` oracle that always matches TMDB movie id 1. -/
def findOneMatch : String → Except Unit TmdbFindResponse :=
  fun _ => .ok { movie_results := some [{ id := 1 }] }

/-- A `/find` oracle whose decoded body has an empty `movie_results`. -/
def findNoMatch : String → Except Unit TmdbFindResponse :=
  fun _ => .ok { movie_results := some [] }

/-- A `/find` oracle that always throws (non-success status, network
failure or undecodable body). -/
def findFail : String → Except Unit TmdbFindResponse :=
  fun _ => .error ()

/-- A release-dates oracle that always throws. -/
def relFail : Int → Except Unit TmdbReleaseDatesResponse :=
  fun _ => .error ()

/-- A release-dates oracle returning `usSample`. -/
def relUS : Int → Except Unit TmdbReleaseDatesResponse :=
  fun _ => .ok usSample

/-- A release-dates oracle returning `unparseableSample`. -/
def relUnparseable : Int → Except Unit TmdbReleaseDatesResponse :=
  fun _ => .ok unparseableSample

/-! ## Helper lemmas about the sort -/

/-- Membership in an ordered insertion. -/
theorem mem_orderedInsert {le : α → α → Bool} {a x : α} (l : List α) :
    x ∈ orderedInsert le a l ↔ x = a ∨ x ∈ l := by
  induction l with
  | nil => simp [orderedInsert]
  | cons b l ih =>
    simp only [orderedInsert]
    split
    · simp [List.mem_cons]
    · simp only [List.mem_cons, ih]
      tauto

/-- Ordered insertion never yields the empty list. -/
theorem orderedInsert_ne_nil (le : α → α → Bool) (a : α) (l : List α) :
    orderedInsert le a l ≠ [] := by
  cases l with
  | nil => simp [orderedInsert]
  | cons b l =>
    simp only [orderedInsert]
    split <;> simp

/-- Sorting preserves membership. -/
theorem mem_sortByLe {le : α → α → Bool} {x : α} (l : List α) :
    x ∈ sortByLe le l ↔ x ∈ l := by
  induction l with
  | nil => simp [sortByLe]
  | cons a l ih => simp [sortByLe, mem_orderedInsert, ih]

/-- Sorting a non-empty list yields a non-empty list. -/
theorem sortByLe_ne_nil (le : α → α → Bool) {l : List α} (h : l ≠ []) :
    sortByLe le l ≠ [] := by
  cases l with
  | nil => exact absurd rfl h
  | cons a l =>
    simpa [sortByLe] using orderedInsert_ne_nil le a (sortByLe le l)

/-- Ordered insertion preserves pairwise sortedness for a total
transitive Boolean relation. -/
theorem pairwise_orderedInsert (le : α → α → Bool)
    (htot : ∀ a b, le a b = true ∨ le b a = true)
    (htr : ∀ a b c, le a b = true → le b c = true → le a c = true)
    (a : α) (l : List α) (hp : l.Pairwise (fun x y => le x y = true)) :
    (orderedInsert le a l).Pairwise (fun x y => le x y = true) := by
  induction l with
  | nil => simp [orderedInsert]
  | cons b l ih =>
    rcases List.pairwise_cons.mp hp with ⟨hb, hl⟩
    simp only [orderedInsert]
    split
    next hab =>
      refine List.pairwise_cons.mpr ⟨?_, hp⟩
      intro x hx
      rcases List.mem_cons.mp hx with rfl | hx
      · exact hab
      · exact htr a b x hab (hb x hx)
    next hab =>
      have hba : le b a = true := (htot a b).resolve_left hab
      refine List.pairwise_cons.mpr ⟨?_, ih hl⟩
      intro x hx
      rcases (mem_orderedInsert l).mp hx with rfl | hx
      · exact hba
      · exact hb x hx

/-- The insertion sort of any list is pairwise sorted, for a total
transitive Boolean relation. -/
theorem pairwise_sortByLe (le : α → α → Bool)
    (htot : ∀ a b, le a b = true ∨ le b a = true)
    (htr : ∀ a b c, le a b = true → le b c = true → le a c = true)
    (l : List α) :
    (sortByLe le l).Pairwise (fun x y => le x y = true) := by
  induction l with
  | nil => simp [sortByLe]
  | cons a l ih => exact pairwise_orderedInsert le htot htr a _ ih

/-- Ordered insertion only compares the inserted element with list
elements. -/
theorem orderedInsert_congr (le le' : α → α → Bool) (a : α) (l : List α)
    (h : ∀ b ∈ l, le a b = le' a b) :
    orderedInsert le a l = orderedInsert le' a l := by
  induction l with
  | nil => rfl
  | cons b l ih =>
    simp only [orderedInsert]
    rw [h b (List.mem_cons_self b l)]
    split
    · rfl
    · rw [ih (fun c hc => h c (List.mem_cons_of_mem b hc))]

/-- The sort only compares elements of the list being sorted. -/
theorem sortByLe_congr (le le' : α → α → Bool) (l : List α)
    (h : ∀ a ∈ l, ∀ b ∈ l, le a b = le' a b) :
    sortByLe le l = sortByLe le' l := by
  induction l with
  | nil => rfl
  | cons a l ih =>
    simp only [sortByLe]
    rw [ih (fun x hx y hy =>
      h x (List.mem_cons_of_mem a hx) y (List.mem_cons_of_mem a hy))]
    exact orderedInsert_congr le le' a (sortByLe le' l)
      (fun b hb => h a (List.mem_cons_self a l) b
        (List.mem_cons_of_mem a ((mem_sortByLe l).mp hb)))

/-- The head of a pairwise-sorted list is below every element, for a
reflexive relation. -/
theorem head_min_of_pairwise (le : α → α → Bool) (hrefl : ∀ a, le a a = true)
    (d : α) (l : List α) (hp : (d :: l).Pairwise (fun x y => le x y = true)) :
    ∀ x ∈ d :: l, le d x = true := by
  intro x hx
  rcases List.mem_cons.mp hx with rfl | hx
  · exact hrefl x
  · exact (List.pairwise_cons.mp hp).1 x hx

/-! ## Helper lemmas about the handler's string tests -/

/-- If the first two elements of `l.takeWhile p` are `[a, b]`, they are
also the first two elements of `l`. -/
theorem take_two_of_takeWhile {p : Char → Bool} {l : List Char} {a b : Char}
    (h : (l.takeWhile p).take 2 = [a, b]) : l.take 2 = [a, b] := by
  cases l with
  | nil => simp at h
  | cons x l' =>
    rw [List.takeWhile_cons] at h
    by_cases hx : p x
    · rw [if_pos hx] at h
      simp only [List.take_succ_cons, List.cons.injEq] at h ⊢
      refine ⟨h.1, ?_⟩
      have h2 := h.2
      cases l' with
      | nil => simp at h2
      | cons y l'' =>
        rw [List.takeWhile_cons] at h2
        by_cases hy : p y
        · rw [if_pos hy] at h2
          simp only [List.take_succ_cons, List.cons.injEq] at h2 ⊢
          simpa using h2
        · rw [if_neg hy] at h2
          simp at h2
    · rw [if_neg hx] at h
      simp at h

/-- If the portion of `s` before the first `":"` starts with `"tt"`, so
does `s` itself. -/
theorem jsStartsWith_of_splitColonHead (s : String)
    (h : jsStartsWith (splitColonHead s) "tt" = true) :
    jsStartsWith s "tt" = true := by
  have hdata : "tt".data = ['t', 't'] := rfl
  unfold jsStartsWith at h ⊢
  rw [hdata] at h ⊢
  have hsc : (splitColonHead s).data = s.data.takeWhile (fun c => c != ':') := rfl
  rw [hsc] at h
  rw [beq_iff_eq] at h ⊢
  exact take_two_of_takeWhile h

/-! ## Helper lemmas about the handler's branches -/

/-- Once the configuration, type and prefix checks pass, the handler is
the `try` block with the `catch` mapping failures to the error entry. -/
theorem streamHandler_eq_try (apiKey : String) (args : StreamArgs)
    (find : String → Except Unit TmdbFindResponse)
    (releaseDates : Int → Except Unit TmdbReleaseDatesResponse)
    (time : String → Option Int) (now : Int)
    (hk : apiKey ≠ "") (ht : args.type = "movie")
    (hid : splitColonHead args.id ≠ "")
    (hstart : jsStartsWith (splitColonHead args.id) "tt" = true) :
    streamHandler apiKey args find releaseDates time now =
      match streamHandlerTry (splitColonHead args.id) find releaseDates time now with
      | .ok r => r
      | .error _ => { streams := [tmdbErrorStream] } := by
  have h1 : (apiKey == "") = false := by simp [hk]
  have h2 : (args.type != "movie") = false := by simp [ht]
  have h3 : (splitColonHead args.id == "" ||
      !jsStartsWith (splitColonHead args.id) "tt") = false := by
    simp [hid, hstart]
  simp only [streamHandler, h1, h2, h3, Bool.false_eq_true, if_false]

/-- Every successful outcome of the `try` block carries exactly one
display entry. -/
theorem streamHandlerTry_ok_length (imdbId : String)
    (find : String → Except Unit TmdbFindResponse)
    (releaseDates : Int → Except Unit TmdbReleaseDatesResponse)
    (time : String → Option Int) (now : Int) (r : StreamResponse)
    (h : streamHandlerTry imdbId find releaseDates time now = .ok r) :
    r.streams.length = 1 := by
  simp only [streamHandlerTry] at h
  repeat' split at h
  all_goals first
    | (cases h; rfl)
    | cases h

/-- The `try` block consults the find oracle only at the given id. -/
theorem streamHandlerTry_congr_find (imdbId : String)
    (find find' : String → Except Unit TmdbFindResponse)
    (releaseDates : Int → Except Unit TmdbReleaseDatesResponse)
    (time : String → Option Int) (now : Int)
    (h : find imdbId = find' imdbId) :
    streamHandlerTry imdbId find releaseDates time now =
      streamHandlerTry imdbId find' releaseDates time now := by
  unfold streamHandlerTry
  rw [h]

/-! ## Claim theorems -/

/-- C6: when the API credential configuration is missing (the key is the
empty string), the response is exactly the configuration-error entry,
regardless of the request's type and id, of both provider oracles, of the
date parser and of the current time. -/
theorem streamHandler_missing_config (args : StreamArgs)
    (find : String → Except Unit TmdbFindResponse)
    (releaseDates : Int → Except Unit TmdbReleaseDatesResponse)
    (time : String → Option Int) (now : Int) :
    streamHandler "" args find releaseDates time now =
      { streams := [configErrorStream] } := by
  simp [streamHandler]

/-- C7: with configuration present, a request whose media type is not
`"movie"` or whose identifier does not start with `"tt"` yields an empty
stream list, for every behaviour of both provider oracles (so the
decision precedes any outbound call). -/
theorem streamHandler_empty_cases (apiKey : String) (args : StreamArgs)
    (find : String → Except Unit TmdbFindResponse)
    (releaseDates : Int → Except Unit TmdbReleaseDatesResponse)
    (time : String → Option Int) (now : Int)
    (hk : apiKey ≠ "")
    (h : args.type ≠ "movie" ∨ jsStartsWith args.id "tt" = false) :
    streamHandler apiKey args find releaseDates time now = { streams := [] } := by
  have h1 : (apiKey == "") = false := by simp [hk]
  by_cases ht : args.type = "movie"
  · rcases h with h | h
    · exact absurd ht h
    · have h2 : (args.type != "movie") = false := by simp [ht]
      have h3 : (splitColonHead args.id == "" ||
          !jsStartsWith (splitColonHead args.id) "tt") = true := by
        cases hcase : jsStartsWith (splitColonHead args.id) "tt" with
        | false => simp [hcase]
        | true =>
          exact absurd (jsStartsWith_of_splitColonHead args.id hcase)
            (by simp [h])
      simp only [streamHandler, h1, h2, h3, Bool.false_eq_true, if_false,
        if_true]
  · have h2 : (args.type != "movie") = true := by simp [ht]
    simp only [streamHandler, h1, h2, Bool.false_eq_true, if_false, if_true]

/-- Witness for C7 at a concrete non-movie request. -/
theorem streamHandler_empty_cases_witness :
    streamHandler "key" ⟨"series", "tt123"⟩ findOneMatch relUS jsDateMillis 0 =
      { streams := [] } :=
  streamHandler_empty_cases "key" ⟨"series", "tt123"⟩ findOneMatch relUS
    jsDateMillis 0 (by decide) (Or.inl (by decide))

/-- C8: with configuration present, a valid `tt…` movie request whose
`/find` lookup succeeds but yields no internal identifier produces the
`No TMDB match` entry with the provider's generic landing link. -/
theorem streamHandler_no_match (apiKey : String) (args : StreamArgs)
    (find : String → Except Unit TmdbFindResponse)
    (releaseDates : Int → Except Unit TmdbReleaseDatesResponse)
    (time : String → Option Int) (now : Int) (fd : TmdbFindResponse)
    (hk : apiKey ≠ "") (ht : args.type = "movie")
    (hid : splitColonHead args.id ≠ "")
    (hstart : jsStartsWith (splitColonHead args.id) "tt" = true)
    (hfind : find (splitColonHead args.id) = .ok fd)
    (hnone : getTmdbIdFromImdb fd = none) :
    streamHandler apiKey args find releaseDates time now =
      { streams := [noMatchStream (splitColonHead args.id)] } := by
  rw [streamHandler_eq_try apiKey args find releaseDates time now hk ht hid
    hstart]
  simp only [streamHandlerTry, hfind, hnone]

/-- Witness for C8 at a concrete empty `/find` result. -/
theorem streamHandler_no_match_witness :
    streamHandler "key" ⟨"movie", "tt123"⟩ findNoMatch relUS jsDateMillis 0 =
      { streams := [noMatchStream (splitColonHead "tt123")] } :=
  streamHandler_no_match "key" ⟨"movie", "tt123"⟩ findNoMatch relUS jsDateMillis
    0 { movie_results := some [] } (by decide) rfl (by decide) (by decide) rfl
    rfl

/-- C2: once the configuration, type and prefix checks pass, any thrown
failure of a provider call that is actually made (non-success HTTP
status, network failure, undecodable body — all modelled as `.error ()`)
is caught and converted into the `TMDB error` entry with the generic
landing link; the handler is a total function, so no exception reaches
the caller. -/
theorem streamHandler_provider_failure (apiKey : String) (args : StreamArgs)
    (find : String → Except Unit TmdbFindResponse)
    (releaseDates : Int → Except Unit TmdbReleaseDatesResponse)
    (time : String → Option Int) (now : Int)
    (hk : apiKey ≠ "") (ht : args.type = "movie")
    (hid : splitColonHead args.id ≠ "")
    (hstart : jsStartsWith (splitColonHead args.id) "tt" = true)
    (hfail : find (splitColonHead args.id) = .error () ∨
      ∃ fd n, find (splitColonHead args.id) = .ok fd ∧
        getTmdbIdFromImdb fd = some n ∧ n ≠ 0 ∧ releaseDates n = .error ()) :
    streamHandler apiKey args find releaseDates time now =
      { streams := [tmdbErrorStream] } := by
  rw [streamHandler_eq_try apiKey args find releaseDates time now hk ht hid
    hstart]
  rcases hfail with hf | ⟨fd, n, hf, hn, hn0, hr⟩
  · simp only [streamHandlerTry, hf]
  · have hn0' : (n == 0) = false := by simp [hn0]
    simp only [streamHandlerTry, hf, hn, hn0', Bool.false_eq_true, if_false,
      hr]

/-- Witness for C2 at a concrete throwing `/find` call. -/
theorem streamHandler_provider_failure_witness :
    streamHandler "key" ⟨"movie", "tt123"⟩ findFail relUS jsDateMillis 0 =
      { streams := [tmdbErrorStream] } :=
  streamHandler_provider_failure "key" ⟨"movie", "tt123"⟩ findFail relUS
    jsDateMillis 0 (by decide) rfl (by decide) (by decide) (Or.inl rfl)

/-- C3: when the request resolves to a release date that parses to a
time at or before the current time (including equality), the response is
the `Digital release` entry showing the date with the item page link. -/
theorem streamHandler_released (apiKey : String) (args : StreamArgs)
    (find : String → Except Unit TmdbFindResponse)
    (releaseDates : Int → Except Unit TmdbReleaseDatesResponse)
    (time : String → Option Int) (now : Int)
    (fd : TmdbFindResponse) (n : Int) (rd : TmdbReleaseDatesResponse)
    (pd : String) (t : Int)
    (hk : apiKey ≠ "") (ht : args.type = "movie")
    (hid : splitColonHead args.id ≠ "")
    (hstart : jsStartsWith (splitColonHead args.id) "tt" = true)
    (hfind : find (splitColonHead args.id) = .ok fd)
    (hn : getTmdbIdFromImdb fd = some n) (hn0 : n ≠ 0)
    (hrel : releaseDates n = .ok rd)
    (hpd : getDigitalReleaseDate time rd = some pd) (hpd0 : pd ≠ "")
    (htime : time pd = some t) (hle : t ≤ now) :
    streamHandler apiKey args find releaseDates time now =
      { streams := [digitalReleaseStream (jsDateOnly pd)
          ("https://www.themoviedb.org/movie/" ++ toString n)] } := by
  rw [streamHandler_eq_try apiKey args find releaseDates time now hk ht hid
    hstart]
  have hn0' : (n == 0) = false := by simp [hn0]
  have hpd0' : (pd == "") = false := by simp [hpd0]
  simp only [streamHandlerTry, hfind, hn, hn0', hrel, hpd, hpd0', htime,
    Bool.false_eq_true, if_false]
  rw [if_pos hle]

/-- Witness for C3, at a release time exactly equal to the current time
(midnight UTC of 2024-05-01, the earliest US digital date). -/
theorem streamHandler_released_witness :
    streamHandler "key" ⟨"movie", "tt123"⟩ findOneMatch relUS jsDateMillis
        1714521600000 =
      { streams := [digitalReleaseStream (jsDateOnly "2024-05-01")
          ("https://www.themoviedb.org/movie/" ++ toString (1 : Int))] } :=
  streamHandler_released "key" ⟨"movie", "tt123"⟩ findOneMatch relUS
    jsDateMillis 1714521600000 { movie_results := some [{ id := 1 }] } 1
    usSample "2024-05-01" 1714521600000 (by decide) rfl (by decide) (by decide)
    rfl rfl (by decide) rfl (by decide) (by decide) (by decide) (by decide)

/-- C4: when the request resolves to a release date that parses to a
time strictly after the current time, the response is the
`⏳ Not Available Yet` entry showing the date with the item page link. -/
theorem streamHandler_future (apiKey : String) (args : StreamArgs)
    (find : String → Except Unit TmdbFindResponse)
    (releaseDates : Int → Except Unit TmdbReleaseDatesResponse)
    (time : String → Option Int) (now : Int)
    (fd : TmdbFindResponse) (n : Int) (rd : TmdbReleaseDatesResponse)
    (pd : String) (t : Int)
    (hk : apiKey ≠ "") (ht : args.type = "movie")
    (hid : splitColonHead args.id ≠ "")
    (hstart : jsStartsWith (splitColonHead args.id) "tt" = true)
    (hfind : find (splitColonHead args.id) = .ok fd)
    (hn : getTmdbIdFromImdb fd = some n) (hn0 : n ≠ 0)
    (hrel : releaseDates n = .ok rd)
    (hpd : getDigitalReleaseDate time rd = some pd) (hpd0 : pd ≠ "")
    (htime : time pd = some t) (hgt : now < t) :
    streamHandler apiKey args find releaseDates time now =
      { streams := [notAvailableYetStream (jsDateOnly pd)
          ("https://www.themoviedb.org/movie/" ++ toString n)] } := by
  rw [streamHandler_eq_try apiKey args find releaseDates time now hk ht hid
    hstart]
  have hn0' : (n == 0) = false := by simp [hn0]
  have hpd0' : (pd == "") = false := by simp [hpd0]
  simp only [streamHandlerTry, hfind, hn, hn0', hrel, hpd, hpd0', htime,
    Bool.false_eq_true, if_false]
  rw [if_neg (not_le.mpr hgt)]

/-- Witness for C4 at a current time one millisecond before the release
time. -/
theorem streamHandler_future_witness :
    streamHandler "key" ⟨"movie", "tt123"⟩ findOneMatch relUS jsDateMillis
        1714521599999 =
      { streams := [notAvailableYetStream (jsDateOnly "2024-05-01")
          ("https://www.themoviedb.org/movie/" ++ toString (1 : Int))] } :=
  streamHandler_future "key" ⟨"movie", "tt123"⟩ findOneMatch relUS
    jsDateMillis 1714521599999 { movie_results := some [{ id := 1 }] } 1
    usSample "2024-05-01" 1714521600000 (by decide) rfl (by decide) (by decide)
    rfl rfl (by decide) rfl (by decide) (by decide) (by decide) (by decide)

/-- C5 (counterexample to the claim as stated): for the resolved,
unparseable date `"@T@"`, the `Not yet available` entry shows the
truncated string `"@"` (the portion before the first `"T"`), not the raw
date string `"@T@"`. -/
theorem streamHandler_unparseable_raw_counterexample :
    streamHandler "key" ⟨"movie", "tt123"⟩ findOneMatch relUnparseable
        jsDateMillis 0 =
      { streams := [{ name := "Not yet available",
                      title := "Planned digital release: @",
                      externalUrl := "https://www.themoviedb.org/movie/1" }] } ∧
    getDigitalReleaseDate jsDateMillis unparseableSample = some "@T@" ∧
    jsDateMillis "@T@" = none ∧
    "Planned digital release: @" ≠ "Planned digital release: " ++ "@T@" := by
  refine ⟨?_, by decide, by decide, by decide⟩
  decide

/-- C5 (amended): when the resolved release date is unparseable, the
response is the `Not yet available` entry showing the date string
truncated at its first `"T"` (the raw string when the portion before the
first `"T"` is empty), with the item page link. -/
theorem streamHandler_unparseable (apiKey : String) (args : StreamArgs)
    (find : String → Except Unit TmdbFindResponse)
    (releaseDates : Int → Except Unit TmdbReleaseDatesResponse)
    (time : String → Option Int) (now : Int)
    (fd : TmdbFindResponse) (n : Int) (rd : TmdbReleaseDatesResponse)
    (pd : String)
    (hk : apiKey ≠ "") (ht : args.type = "movie")
    (hid : splitColonHead args.id ≠ "")
    (hstart : jsStartsWith (splitColonHead args.id) "tt" = true)
    (hfind : find (splitColonHead args.id) = .ok fd)
    (hn : getTmdbIdFromImdb fd = some n) (hn0 : n ≠ 0)
    (hrel : releaseDates n = .ok rd)
    (hpd : getDigitalReleaseDate time rd = some pd) (hpd0 : pd ≠ "")
    (htime : time pd = none) :
    streamHandler apiKey args find releaseDates time now =
      { streams := [notYetAvailableStream (jsDateOnly pd)
          ("https://www.themoviedb.org/movie/" ++ toString n)] } := by
  rw [streamHandler_eq_try apiKey args find releaseDates time now hk ht hid
    hstart]
  have hn0' : (n == 0) = false := by simp [hn0]
  have hpd0' : (pd == "") = false := by simp [hpd0]
  simp only [streamHandlerTry, hfind, hn, hn0', hrel, hpd, hpd0', htime,
    Bool.false_eq_true, if_false]

/-- Witness for the amended C5 at the concrete unparseable date `"@T@"`. -/
theorem streamHandler_unparseable_witness :
    streamHandler "key" ⟨"movie", "tt123"⟩ findOneMatch relUnparseable
        jsDateMillis 0 =
      { streams := [notYetAvailableStream (jsDateOnly "@T@")
          ("https://www.themoviedb.org/movie/" ++ toString (1 : Int))] } :=
  streamHandler_unparseable "key" ⟨"movie", "tt123"⟩ findOneMatch
    relUnparseable jsDateMillis 0 { movie_results := some [{ id := 1 }] } 1
    unparseableSample "@T@" (by decide) rfl (by decide) (by decide) rfl rfl
    (by decide) rfl (by decide) (by decide) (by decide)

/-- C9: for every request and every provider behaviour the response
never holds two or more entries, and it is empty exactly in the two
empty-result cases of the decision table (configuration present, and the
media type is not `"movie"` or the identifier check fails); every other
path yields exactly one entry. -/
theorem streamHandler_entry_count (apiKey : String) (args : StreamArgs)
    (find : String → Except Unit TmdbFindResponse)
    (releaseDates : Int → Except Unit TmdbReleaseDatesResponse)
    (time : String → Option Int) (now : Int) :
    (streamHandler apiKey args find releaseDates time now).streams.length ≤ 1 ∧
    ((streamHandler apiKey args find releaseDates time now).streams.length = 0 ↔
      apiKey ≠ "" ∧ (args.type ≠ "movie" ∨ splitColonHead args.id = "" ∨
        jsStartsWith (splitColonHead args.id) "tt" = false)) := by
  by_cases hk : apiKey = ""
  · subst hk
    simp [streamHandler]
  · have h1 : (apiKey == "") = false := by simp [hk]
    by_cases ht : args.type = "movie"
    · have h2 : (args.type != "movie") = false := by simp [ht]
      by_cases hid : splitColonHead args.id = ""
      · have h3 : (splitColonHead args.id == "" ||
            !jsStartsWith (splitColonHead args.id) "tt") = true := by
          simp [hid]
        simp [streamHandler, h1, h2, h3, hk, ht, hid]
      · cases hstart : jsStartsWith (splitColonHead args.id) "tt" with
        | false =>
          have h3 : (splitColonHead args.id == "" ||
              !jsStartsWith (splitColonHead args.id) "tt") = true := by
            simp [hstart]
          simp [streamHandler, h1, h2, h3, hk, ht, hid]
        | true =>
          have h3 : (splitColonHead args.id == "" ||
              !jsStartsWith (splitColonHead args.id) "tt") = false := by
            simp [hid, hstart]
          simp only [streamHandler, h1, h2, h3, Bool.false_eq_true, if_false]
          cases htry : streamHandlerTry (splitColonHead args.id) find
              releaseDates time now with
          | error e => simp [tmdbErrorStream, hk, ht, hid, hstart]
          | ok r =>
            have hlen := streamHandlerTry_ok_length (splitColonHead args.id)
              find releaseDates time now r htry
            simp [hlen, hk, ht, hid, hstart]
    · have h2 : (args.type != "movie") = true := by simp [ht]
      simp [streamHandler, h1, h2, hk, ht]

/-- C10: passing `"tt1234:1:2"` through the id handling: only the
portion before the first `":"` is used — it passes the `"tt"` prefix
check, the find oracle is consulted only at `"tt1234"` (two oracles
agreeing there give identical responses), and any movie request whose
portion before the first `":"` is empty yields the empty stream list. -/
theorem streamHandler_colon_head :
    (splitColonHead "tt1234:1:2" = "tt1234" ∧
      jsStartsWith (splitColonHead "tt1234:1:2") "tt" = true) ∧
    (∀ (apiKey : String) (find find' : String → Except Unit TmdbFindResponse)
      (releaseDates : Int → Except Unit TmdbReleaseDatesResponse)
      (time : String → Option Int) (now : Int), apiKey ≠ "" →
      find "tt1234" = find' "tt1234" →
      streamHandler apiKey ⟨"movie", "tt1234:1:2"⟩ find releaseDates time now =
        streamHandler apiKey ⟨"movie", "tt1234:1:2"⟩ find' releaseDates time
          now) ∧
    (∀ (apiKey : String) (args : StreamArgs)
      (find : String → Except Unit TmdbFindResponse)
      (releaseDates : Int → Except Unit TmdbReleaseDatesResponse)
      (time : String → Option Int) (now : Int),
      apiKey ≠ "" → args.type = "movie" → splitColonHead args.id = "" →
      streamHandler apiKey args find releaseDates time now =
        { streams := [] }) := by
  refine ⟨by decide, ?_, ?_⟩
  · intro apiKey find find' releaseDates time now hk hagree
    have hsp : splitColonHead "tt1234:1:2" = "tt1234" := by decide
    rw [streamHandler_eq_try apiKey ⟨"movie", "tt1234:1:2"⟩ find releaseDates
      time now hk rfl (by decide) (by decide)]
    rw [streamHandler_eq_try apiKey ⟨"movie", "tt1234:1:2"⟩ find' releaseDates
      time now hk rfl (by decide) (by decide)]
    have hcongr := streamHandlerTry_congr_find
      (splitColonHead (StreamArgs.mk "movie" "tt1234:1:2").id) find find'
      releaseDates time now (by simpa using hagree)
    rw [hcongr]
  · intro apiKey args find releaseDates time now hk ht hid
    have h1 : (apiKey == "") = false := by simp [hk]
    have h2 : (args.type != "movie") = false := by simp [ht]
    have h3 : (splitColonHead args.id == "" ||
        !jsStartsWith (splitColonHead args.id) "tt") = true := by simp [hid]
    simp only [streamHandler, h1, h2, h3, Bool.false_eq_true, if_false,
      if_true]

/-- Witness for C10 at a movie request whose id starts with `":"`. -/
theorem streamHandler_colon_head_witness :
    streamHandler "key" ⟨"movie", ":tt9"⟩ findOneMatch relUS jsDateMillis 0 =
      { streams := [] } :=
  streamHandler_colon_head.2.2 "key" ⟨"movie", ":tt9"⟩ findOneMatch relUS
    jsDateMillis 0 (by decide) rfl (by decide)

/-- C1: the release-date resolver returns `none` when the candidate set
(digital-type, non-empty-date events; US-restricted when that set is
non-empty, unrestricted otherwise — `candidatesOf`) is empty, and
otherwise the chronologically earliest member of the candidate set
(stated for any date parser under which all candidates parse); in
particular it returns `2024-05-01` on the US sample and `2024-07-15` on
the fallback sample. -/
theorem getDigitalReleaseDate_earliest (time : String → Option Int)
    (data : TmdbReleaseDatesResponse)
    (hpar : ∀ d ∈ candidatesOf data, (time d).isSome = true) :
    (candidatesOf data = [] → getDigitalReleaseDate time data = none) ∧
    (candidatesOf data ≠ [] → ∃ d td,
      getDigitalReleaseDate time data = some d ∧
      d ∈ candidatesOf data ∧ time d = some td ∧
      ∀ d' ∈ candidatesOf data, ∀ td', time d' = some td' → td ≤ td') ∧
    getDigitalReleaseDate jsDateMillis usSample = some "2024-05-01" ∧
    getDigitalReleaseDate jsDateMillis fallbackSample = some "2024-07-15" := by
  refine ⟨?_, ?_, by decide, by decide⟩
  · intro h
    simp [getDigitalReleaseDate, h]
  · intro hne
    have hlen : ((candidatesOf data).length == 0) = false := by
      simp [List.length_eq_zero, hne]
    set le' : String → String → Bool :=
      fun a b => decide ((time a).getD 0 ≤ (time b).getD 0) with hle'
    have hagree : ∀ a ∈ candidatesOf data, ∀ b ∈ candidatesOf data,
        jsLe time a b = le' a b := by
      intro a ha b hb
      rcases Option.isSome_iff_exists.mp (hpar a ha) with ⟨x, hx⟩
      rcases Option.isSome_iff_exists.mp (hpar b hb) with ⟨y, hy⟩
      simp [jsLe, hx, hy, hle']
    have hsorteq : sortByLe (jsLe time) (candidatesOf data) =
        sortByLe le' (candidatesOf data) :=
      sortByLe_congr (jsLe time) le' (candidatesOf data) hagree
    have htot : ∀ a b, le' a b = true ∨ le' b a = true := by
      intro a b
      simp only [hle', decide_eq_true_eq]
      exact le_total _ _
    have htr : ∀ a b c, le' a b = true → le' b c = true → le' a c = true := by
      intro a b c
      simp only [hle', decide_eq_true_eq]
      exact le_trans
    have hrefl : ∀ a, le' a a = true := by
      intro a
      simp [hle']
    obtain ⟨d, rest, hd⟩ : ∃ d rest,
        sortByLe le' (candidatesOf data) = d :: rest := by
      cases hsl : sortByLe le' (candidatesOf data) with
      | nil => exact absurd hsl (sortByLe_ne_nil le' hne)
      | cons d rest => exact ⟨d, rest, rfl⟩
    have hres : getDigitalReleaseDate time data = some d := by
      simp only [getDigitalReleaseDate, hlen, Bool.false_eq_true, if_false,
        hsorteq, hd, List.head?_cons]
    have hdmem : d ∈ candidatesOf data := by
      have hmem : d ∈ sortByLe le' (candidatesOf data) := by
        rw [hd]
        exact List.mem_cons_self d rest
      exact (mem_sortByLe (candidatesOf data)).mp hmem
    rcases Option.isSome_iff_exists.mp (hpar d hdmem) with ⟨td, htd⟩
    refine ⟨d, td, hres, hdmem, htd, ?_⟩
    intro d' hd' td' htd'
    have hd'mem : d' ∈ d :: rest := by
      rw [← hd]
      exact (mem_sortByLe (candidatesOf data)).mpr hd'
    have hpw := pairwise_sortByLe le' htot htr (candidatesOf data)
    rw [hd] at hpw
    have hmin := head_min_of_pairwise le' hrefl d rest hpw d' hd'mem
    simp only [hle', decide_eq_true_eq, htd, htd', Option.getD_some] at hmin
    exact hmin

/-- Witness for C1 at the US sample (all candidate dates parse). -/
theorem getDigitalReleaseDate_earliest_witness :
    getDigitalReleaseDate jsDateMillis usSample = some "2024-05-01" :=
  (getDigitalReleaseDate_earliest jsDateMillis usSample (by decide)).2.2.1

end Availability
